import Mathlib

/-!
Verification of the SteerMate driver safety scorer
(`backend/ml/driver_scoring.py`, class `DriverScorer`).

The scorer is a pure function from a trip summary, a list of trip events
and a list of sign detections to a `SafetyScore`.  Python floats are
modelled by exact rationals (`ℚ`); Python's `round` (banker's rounding,
used both by `round(x)` and by `round(x, 1)` and by the `:.0f` format) is
modelled by `pyRound` below.  Python dicts holding optional/nullable
fields are modelled by structures of `Option` fields: `none` stands for
"key absent or value `None`" (the code reads every such field with
`dict.get(...) or 0` / `dict.get(..., default)`, which treats both the
same way wherever the scorer consumes them).
-/

attribute [local semireducible] Rat.add Rat.mul Rat.inv Rat.sub Rat.ofScientific

namespace SteerMate

/-- Input trip summary (`trip_data` dict).  Only `distance_m` and
`duration_seconds` are read by the scorer. -/
structure TripData where
  distance_m : Option ℚ
  duration_seconds : Option ℚ
  deriving DecidableEq, Repr

/-- Input trip event dict.  Only `event_type` and `speed_m_s` are read. -/
structure Event where
  event_type : Option String
  speed_m_s : Option ℚ
  deriving DecidableEq, Repr

/-- Input sign detection dict.  Only `sign_class` is read; `confidence`
is bound by the code but never used. -/
structure Detection where
  sign_class : Option String
  confidence : Option ℚ
  deriving DecidableEq, Repr

/-- Python-side breakdown dict, keys `base`, `events`, `overspeed`,
`sign_compliance`. -/
structure Breakdown where
  base : ℚ
  events : ℚ
  overspeed : ℚ
  sign_compliance : ℚ
  deriving DecidableEq, Repr

/-- Result dataclass `SafetyScore`. -/
structure SafetyScore where
  score : ℤ
  risk_level : String
  grade : String
  issues : List String
  recommendations : List String
  breakdown : Breakdown
  deriving DecidableEq, Repr

/-- Python's `round` to the nearest integer, ties to even
(used by `int(round(final_score))` and, scaled, by `round(v, 1)` and
the `:.0f` format). -/
def pyRound (q : ℚ) : ℤ :=
  if q - q.floor < 1/2 then q.floor
  else if 1/2 < q - q.floor then q.floor + 1
  else if q.floor % 2 = 0 then q.floor else q.floor + 1

/-- Python's `round(v, 1)`: round to one decimal place, ties to even. -/
def round1 (q : ℚ) : ℚ := (pyRound (q * 10) : ℚ) / 10

/-- `distance_km = max((trip_data.get("distance_m") or 0) / 1000, 1.0)`. -/
def distance_km (t : TripData) : ℚ := max ((t.distance_m.getD 0) / 1000) 1

/-- `duration_min = max((trip_data.get("duration_seconds") or 0) / 60, 1.0)`
(computed by the code but unused by scoring). -/
def duration_min (t : TripData) : ℚ := max ((t.duration_seconds.getD 0) / 60) 1

/-- `event.get("event_type", "unknown")`.  A present-but-`None` value
behaves exactly like any unrecognized type string, so it is folded into
`"unknown"` as well. -/
def eventTypeOf (e : Event) : String := e.event_type.getD "unknown"

/-- One step of building the `event_counts` dict: bump the count of key
`k`, preserving first-insertion order of keys (Python dicts iterate in
insertion order). -/
def insertCount (l : List (String × Nat)) (k : String) : List (String × Nat) :=
  match l with
  | [] => [(k, 1)]
  | (k', c) :: rest =>
      if k' = k then (k, c + 1) :: rest else (k', c) :: insertCount rest k

/-- The `event_counts` dict as an insertion-ordered association list. -/
def event_counts (es : List Event) : List (String × Nat) :=
  es.foldl (fun acc e => insertCount acc (eventTypeOf e)) []

/-- For one event: `max(0, (event.get("speed_m_s") or 0) * 3.6 - 50)`. -/
def overspeed_amount (e : Event) : ℚ := max 0 ((e.speed_m_s.getD 0) * 3.6 - 50)

/-- Running maximum of `overspeed_amount` over events whose type is
`"overspeed"`, starting from `0.0`. -/
def max_overspeed_kmh (es : List Event) : ℚ :=
  es.foldl (fun m e => if eventTypeOf e = "overspeed" then max m (overspeed_amount e) else m) 0

/-- The `EVENT_PENALTIES` table. -/
def EVENT_PENALTIES : List (String × ℚ) :=
  [("hard_brake", 3.0), ("harsh_accel", 2.0), ("overspeed", 4.0), ("unsafe_curve", 3.5)]

/-- `EVENT_PENALTIES.get(event_type, 2.0)`. -/
def penaltyFor (ty : String) : ℚ :=
  (((EVENT_PENALTIES.find? (fun p => p.1 == ty)).map Prod.snd).getD 2.0)

/-- One summand of `event_deduction`:
`normalized_count = (count / distance_km) * 100; deduction = normalized_count * penalty`. -/
def deductionTerm (d : ℚ) (p : String × Nat) : ℚ :=
  ((p.2 : ℚ) / d) * 100 * penaltyFor p.1

/-- `event_deduction`: sum of the per-type deductions. -/
def event_deduction (counts : List (String × Nat)) (d : ℚ) : ℚ :=
  (counts.map (deductionTerm d)).sum

/-- The issue string appended for one `(event_type, count)` entry
(only the four known types produce an issue; the `count > 0` guard is
kept from the source even though counts are always positive). -/
def issueFor (p : String × Nat) : Option String :=
  if 0 < p.2 then
    if p.1 = "hard_brake" then some ("Hard braking: " ++ toString p.2 ++ " times")
    else if p.1 = "harsh_accel" then some ("Harsh acceleration: " ++ toString p.2 ++ " times")
    else if p.1 = "overspeed" then some ("Over speed limit: " ++ toString p.2 ++ " times")
    else if p.1 = "unsafe_curve" then some ("Unsafe cornering: " ++ toString p.2 ++ " times")
    else none
  else none

/-- Issue strings produced by the event-count loop, in dict order. -/
def event_issues (counts : List (String × Nat)) : List String :=
  counts.filterMap issueFor

/-- `f"Max speed exceeded limit by \x7bmax_overspeed_kmh:.0f\x7d km/h"`. -/
def overspeed_issue (m : ℚ) : String :=
  "Max speed exceeded limit by " ++ toString (pyRound m) ++ " km/h"

/-- Substring test, modelling Python's `pat in s`. -/
def strContains (s pat : String) : Bool :=
  (List.range (s.length + 1)).any
    (fun i => ((s.data.drop i).take pat.data.length) == pat.data)

/-- Python's `int(s)` on a string, as an `Option`: optional surrounding
whitespace, an optional single sign, then one or more ASCII digits;
anything else raises `ValueError`, i.e. returns `none` here.  (The
tokens fed to it by the scorer come from `split("_")`, so the
digit-group-underscore form of Python int literals cannot occur.) -/
def pyIntParse (s : String) : Option ℤ :=
  let t := ((s.data.dropWhile Char.isWhitespace).reverse.dropWhile Char.isWhitespace).reverse
  let signed : ℤ × List Char :=
    match t with
    | '-' :: ds => (-1, ds)
    | '+' :: ds => (1, ds)
    | ds => (1, ds)
  if !signed.2.isEmpty && signed.2.all Char.isDigit then
    some (signed.1 * (signed.2.foldl (fun acc c => acc * 10 + (c.toNat - 48)) 0 : ℕ))
  else none

/-- `sign_class.split("_")[-1]` (the split list is never empty; the
separator is the single character `_`). -/
def lastToken (s : String) : String := String.mk ((s.data.splitOn '_').getLastD [])

/-- The loop body of the sign-detection scan: the parsed speed limit a
single detection contributes, if any (`sign_class` must contain
`"speed_limit_"` and its trailing token must parse as an integer). -/
def limitOf (dt : Detection) : Option ℤ :=
  let sc := dt.sign_class.getD ""
  if strContains sc "speed_limit_" then pyIntParse (lastToken sc) else none

/-- The `detected_limits` list: for each detection whose `sign_class`
contains `"speed_limit_"`, the successfully parsed trailing token. -/
def detected_limits (ds : List Detection) : List ℤ :=
  ds.filterMap limitOf

/-- `sign_compliance_bonus`: `5.0` iff `detected_limits` is nonempty. -/
def sign_bonus (ds : List Detection) : ℚ :=
  if (detected_limits ds).isEmpty then 0 else 5

/-- `breakdown["events"] = -min(event_deduction, 40)`. -/
def events_contribution (t : TripData) (es : List Event) : ℚ :=
  -(min (event_deduction (event_counts es) (distance_km t)) 40)

/-- `breakdown["overspeed"] = -min(max_overspeed_kmh * 0.5, 20)`. -/
def overspeed_contribution (es : List Event) : ℚ :=
  -(min (max_overspeed_kmh es * 0.5) 20)

/-- `max(0, min(100, x))`. -/
def clamp100 (q : ℚ) : ℚ := max 0 (min 100 q)

/-- `final_score` after clamping. -/
def final_score (t : TripData) (es : List Event) (ds : List Detection) : ℚ :=
  clamp100 (100 + events_contribution t es + overspeed_contribution es + sign_bonus ds)

/-- The risk-level loop over `RISK_THRESHOLDS` sorted by value
descending (`low:80, medium:60, high:0`), first threshold `≤ final`
wins; initial value `"high"`. -/
def risk_level_of (q : ℚ) : String :=
  if 80 ≤ q then "low" else if 60 ≤ q then "medium" else "high"

/-- The grade loop over `GRADE_THRESHOLDS` sorted by value descending
(`A:90, B:80, C:70, D:60, F:0`), first threshold `≤ final` wins;
initial value `"F"`. -/
def grade_of (q : ℚ) : String :=
  if 90 ≤ q then "A" else if 80 ≤ q then "B" else if 70 ≤ q then "C"
  else if 60 ≤ q then "D" else "F"

/-- The full `issues` list: per-type issues in dict order, then the
max-overspeed issue when `max_overspeed_kmh > 10`. -/
def issues_of (es : List Event) : List String :=
  event_issues (event_counts es) ++
    (if 10 < max_overspeed_kmh es then [overspeed_issue (max_overspeed_kmh es)] else [])

/-- `event_counts.get(k, 0)`. -/
def getCount (counts : List (String × Nat)) (k : String) : Nat :=
  (((counts.find? (fun p => p.1 == k)).map Prod.snd).getD 0)

/-- Recommendation text (source literal, adjacent string literals
concatenated; the non-ASCII prefixes reproduce the source bytes). -/
def msg_hard_brake_high : String :=
  "ðŸš— Maintain a larger following distance to avoid hard braking. Try to anticipate stops 3-4 seconds ahead."

/-- Recommendation text (source literal). -/
def msg_hard_brake_low : String :=
  "ðŸ’¡ Look further ahead to anticipate traffic slowdowns and brake more gradually."

/-- Recommendation text (source literal). -/
def msg_harsh_accel : String :=
  "âš¡ Smooth acceleration saves fuel and reduces wear. Try to take 5+ seconds to reach cruising speed."

/-- Recommendation text (source literal). -/
def msg_overspeed_strong : String :=
  "ðŸš¨ Significantly exceeding speed limits is dangerous. Use cruise control to maintain safe speeds."

/-- Recommendation text (source literal). -/
def msg_overspeed_mild : String :=
  "âš ï¸ Watch your speed after passing speed limit signs. It takes time to adjust - start slowing early."

/-- Recommendation text (source literal). -/
def msg_unsafe_curve : String :=
  "ðŸ”„ Slow down before entering curves, not during. Reduce speed to a comfortable level before the turn."

/-- The positive-reinforcement message (source literal). -/
def msg_positive : String :=
  "ðŸŒŸ Excellent driving! Keep up the safe habits. Your smooth driving style is both safe and fuel-efficient."

/-- The hard-brake rule: fires when there are hard brakes and the
per-100km rate exceeds 5 (strong message) or 2 (mild message). -/
def rule_hard_brake (hb : Nat) (d : ℚ) : List String :=
  if 0 < hb then
    (if 5 < ((hb : ℚ) / d) * 100 then [msg_hard_brake_high]
     else if 2 < ((hb : ℚ) / d) * 100 then [msg_hard_brake_low]
     else [])
  else []

/-- The harsh-acceleration rule: fires when the per-100km rate exceeds 3. -/
def rule_harsh_accel (ha : Nat) (d : ℚ) : List String :=
  if 0 < ha then
    (if 3 < ((ha : ℚ) / d) * 100 then [msg_harsh_accel] else [])
  else []

/-- The overspeed rule: fires when there is an overspeed event or
`max_overspeed_kmh > 5`; strong message above 20 km/h over. -/
def rule_overspeed (os : Nat) (mo : ℚ) : List String :=
  if 0 < os ∨ 5 < mo then
    (if 20 < mo then [msg_overspeed_strong] else [msg_overspeed_mild])
  else []

/-- The unsafe-curve rule: fires when there is any unsafe-curve event. -/
def rule_unsafe_curve (uc : Nat) : List String :=
  if 0 < uc then [msg_unsafe_curve] else []

/-- The rule-generated messages of `_generate_recommendations`, in the
source's fixed order (hard brake, harsh accel, overspeed, unsafe curve),
before the empty-fallback and the `[:3]` truncation. -/
def rule_messages (hb ha os uc : Nat) (mo d : ℚ) : List String :=
  rule_hard_brake hb d ++ rule_harsh_accel ha d ++ rule_overspeed os mo ++ rule_unsafe_curve uc

/-- `_generate_recommendations(event_counts, max_overspeed_kmh, distance_km)`. -/
def generate_recommendations (counts : List (String × Nat)) (mo d : ℚ) : List String :=
  let msgs := rule_messages (getCount counts "hard_brake") (getCount counts "harsh_accel")
      (getCount counts "overspeed") (getCount counts "unsafe_curve") mo d
  (if msgs.isEmpty then [msg_positive] else msgs).take 3

/-- `DriverScorer.score_trip`. -/
def score_trip (t : TripData) (es : List Event) (ds : List Detection) : SafetyScore :=
  let d := distance_km t
  let counts := event_counts es
  let mo := max_overspeed_kmh es
  let final := final_score t es ds
  { score := pyRound final
    risk_level := risk_level_of final
    grade := grade_of final
    issues := issues_of es
    recommendations := generate_recommendations counts mo d
    breakdown :=
      { base := round1 100
        events := round1 (events_contribution t es)
        overspeed := round1 (overspeed_contribution es)
        sign_compliance := round1 (sign_bonus ds) } }

/-! ### Basic lemmas about the rounding and clamping helpers -/

lemma ratFloor_eq_floor (q : ℚ) : q.floor = ⌊q⌋ := by
  rw [Rat.floor_def', Rat.floor_def]

lemma floor_le_pyRound (q : ℚ) : ⌊q⌋ ≤ pyRound q := by
  unfold pyRound
  rw [ratFloor_eq_floor]
  split_ifs <;> omega

lemma pyRound_le_floor_add_one (q : ℚ) : pyRound q ≤ ⌊q⌋ + 1 := by
  unfold pyRound
  rw [ratFloor_eq_floor]
  split_ifs <;> omega

lemma pyRound_mono {x y : ℚ} (h : x ≤ y) : pyRound x ≤ pyRound y := by
  rcases lt_or_eq_of_le (Int.floor_le_floor h) with hf | hf
  · calc pyRound x ≤ ⌊x⌋ + 1 := pyRound_le_floor_add_one x
      _ ≤ ⌊y⌋ := by omega
      _ ≤ pyRound y := floor_le_pyRound y
  · unfold pyRound
    rw [ratFloor_eq_floor, ratFloor_eq_floor, hf]
    have hxy : x - (⌊y⌋ : ℚ) ≤ y - (⌊y⌋ : ℚ) := by linarith
    split_ifs <;> first | omega | (exfalso; linarith)

lemma pyRound_intCast (n : ℤ) : pyRound (n : ℚ) = n := by
  unfold pyRound
  rw [ratFloor_eq_floor, Int.floor_intCast]
  rw [sub_self]
  norm_num

lemma round1_mono {x y : ℚ} (h : x ≤ y) : round1 x ≤ round1 y := by
  unfold round1
  have : pyRound (x * 10) ≤ pyRound (y * 10) := pyRound_mono (by linarith)
  have : (pyRound (x * 10) : ℚ) ≤ (pyRound (y * 10) : ℚ) := by exact_mod_cast this
  linarith

lemma clamp100_nonneg (q : ℚ) : 0 ≤ clamp100 q := le_max_left _ _

lemma clamp100_le_100 (q : ℚ) : clamp100 q ≤ 100 :=
  max_le (by norm_num) (min_le_left _ _)

lemma clamp100_mono {x y : ℚ} (h : x ≤ y) : clamp100 x ≤ clamp100 y :=
  max_le_max le_rfl (min_le_min le_rfl h)

/-! ### Lemmas about the scoring ingredients -/

lemma one_le_distance_km (t : TripData) : 1 ≤ distance_km t := le_max_right _ _

lemma distance_km_pos (t : TripData) : 0 < distance_km t :=
  lt_of_lt_of_le one_pos (one_le_distance_km t)

lemma penaltyFor_pos (ty : String) : 0 < penaltyFor ty := by
  unfold penaltyFor
  cases h : EVENT_PENALTIES.find? (fun p => p.1 == ty) with
  | none => norm_num
  | some p =>
      have hmem := List.mem_of_find?_eq_some h
      fin_cases hmem <;> norm_num

lemma deductionTerm_nonneg {d : ℚ} (hd : 0 < d) (p : String × Nat) :
    0 ≤ deductionTerm d p := by
  unfold deductionTerm
  have h1 : (0 : ℚ) ≤ (p.2 : ℚ) / d := div_nonneg (by positivity) hd.le
  have h2 := (penaltyFor_pos p.1).le
  positivity

lemma event_deduction_nonneg {d : ℚ} (hd : 0 < d) (counts : List (String × Nat)) :
    0 ≤ event_deduction counts d := by
  unfold event_deduction
  apply List.sum_nonneg
  intro x hx
  obtain ⟨p, _, rfl⟩ := List.mem_map.mp hx
  exact deductionTerm_nonneg hd p

lemma overspeed_amount_nonneg (e : Event) : 0 ≤ overspeed_amount e := le_max_left _ _

lemma foldr_max_nonneg (l : List ℚ) : 0 ≤ l.foldr max 0 := by
  induction l with
  | nil => exact le_rfl
  | cons x xs ih => exact le_trans ih (le_max_right _ _)

lemma max_overspeed_go (es : List Event) :
    ∀ a : ℚ, 0 ≤ a →
      es.foldl (fun m e => if eventTypeOf e = "overspeed" then max m (overspeed_amount e) else m) a =
        max a (((es.filter (fun e => eventTypeOf e == "overspeed")).map overspeed_amount).foldr max 0) := by
  induction es with
  | nil => intro a ha; simp [max_eq_left ha]
  | cons e es ih =>
      intro a ha
      by_cases h : eventTypeOf e = "overspeed"
      · simp only [List.foldl_cons, List.filter_cons, h, if_pos, beq_self_eq_true, List.map_cons,
          List.foldr_cons]
        rw [ih (max a (overspeed_amount e)) (le_trans ha (le_max_left _ _))]
        rw [max_assoc]
      · have hb : (eventTypeOf e == "overspeed") = false := by
          simpa using h
        simp only [List.foldl_cons, List.filter_cons, h, if_neg, hb]
        simp only [Bool.false_eq_true, if_false]
        exact ih a ha

lemma max_overspeed_eq (es : List Event) :
    max_overspeed_kmh es =
      ((es.filter (fun e => eventTypeOf e == "overspeed")).map overspeed_amount).foldr max 0 := by
  unfold max_overspeed_kmh
  rw [max_overspeed_go es 0 le_rfl]
  exact max_eq_right (foldr_max_nonneg _)

lemma max_overspeed_nonneg (es : List Event) : 0 ≤ max_overspeed_kmh es := by
  rw [max_overspeed_eq]
  exact foldr_max_nonneg _

lemma events_contribution_bounds (t : TripData) (es : List Event) :
    -40 ≤ events_contribution t es ∧ events_contribution t es ≤ 0 := by
  unfold events_contribution
  have h0 := event_deduction_nonneg (distance_km_pos t) (event_counts es)
  constructor
  · have : min (event_deduction (event_counts es) (distance_km t)) 40 ≤ 40 := min_le_right _ _
    linarith
  · have : (0 : ℚ) ≤ min (event_deduction (event_counts es) (distance_km t)) 40 :=
      le_min h0 (by norm_num)
    linarith

lemma overspeed_contribution_bounds (es : List Event) :
    -20 ≤ overspeed_contribution es ∧ overspeed_contribution es ≤ 0 := by
  unfold overspeed_contribution
  have h0 : (0 : ℚ) ≤ max_overspeed_kmh es * 0.5 := by
    have := max_overspeed_nonneg es
    have h05 : (0 : ℚ) ≤ 0.5 := by norm_num
    positivity
  constructor
  · have : min (max_overspeed_kmh es * 0.5) 20 ≤ 20 := min_le_right _ _
    linarith
  · have : (0 : ℚ) ≤ min (max_overspeed_kmh es * 0.5) 20 := le_min h0 (by norm_num)
    linarith

lemma sign_bonus_cases (ds : List Detection) : sign_bonus ds = 0 ∨ sign_bonus ds = 5 := by
  unfold sign_bonus
  split_ifs <;> simp

lemma final_score_nonneg (t : TripData) (es : List Event) (ds : List Detection) :
    0 ≤ final_score t es ds := clamp100_nonneg _

lemma final_score_le_100 (t : TripData) (es : List Event) (ds : List Detection) :
    final_score t es ds ≤ 100 := clamp100_le_100 _

/-! ### Field-level description of `score_trip` -/

lemma score_trip_score (t : TripData) (es : List Event) (ds : List Detection) :
    (score_trip t es ds).score = pyRound (final_score t es ds) := rfl

lemma score_trip_risk (t : TripData) (es : List Event) (ds : List Detection) :
    (score_trip t es ds).risk_level = risk_level_of (final_score t es ds) := rfl

lemma score_trip_grade (t : TripData) (es : List Event) (ds : List Detection) :
    (score_trip t es ds).grade = grade_of (final_score t es ds) := rfl

lemma score_trip_issues (t : TripData) (es : List Event) (ds : List Detection) :
    (score_trip t es ds).issues = issues_of es := rfl

lemma score_trip_recommendations (t : TripData) (es : List Event) (ds : List Detection) :
    (score_trip t es ds).recommendations =
      generate_recommendations (event_counts es) (max_overspeed_kmh es) (distance_km t) := rfl

lemma score_trip_breakdown (t : TripData) (es : List Event) (ds : List Detection) :
    (score_trip t es ds).breakdown =
      ⟨round1 100, round1 (events_contribution t es), round1 (overspeed_contribution es),
        round1 (sign_bonus ds)⟩ := rfl

lemma round1_neg40 : round1 (-40) = -40 := by decide

lemma round1_neg20 : round1 (-20) = -20 := by decide

lemma round1_zero : round1 0 = 0 := by decide

lemma round1_five : round1 5 = 5 := by decide

/-! ### Claim theorems -/

/-- C1: for every structurally valid input, `score_trip` returns a
`SafetyScore` whose `score` satisfies `0 ≤ score ≤ 100`, and the score
equals the result of clamping `100 + events + overspeed +
sign_compliance` (the breakdown category contributions computed by the
scorer, before their 1-decimal display rounding) into `[0, 100]` and then
rounding to the nearest integer. -/
theorem score_trip_bounds_and_clamp_formula (t : TripData) (es : List Event) (ds : List Detection) :
    0 ≤ (score_trip t es ds).score ∧ (score_trip t es ds).score ≤ 100 ∧
    (score_trip t es ds).score =
      pyRound (clamp100 (100 + events_contribution t es + overspeed_contribution es + sign_bonus ds)) := by
  refine ⟨?_, ?_, rfl⟩
  · have h := pyRound_mono (final_score_nonneg t es ds)
    rwa [show (0 : ℚ) = ((0 : ℤ) : ℚ) by norm_num, pyRound_intCast] at h
  · have h := pyRound_mono (final_score_le_100 t es ds)
    rwa [show (100 : ℚ) = ((100 : ℤ) : ℚ) by norm_num, pyRound_intCast] at h

/-- C3: for every input, the returned breakdown satisfies: the events
contribution is in `[-40, 0]`, the overspeed contribution is in
`[-20, 0]`, and the sign-compliance contribution is exactly `0` or
exactly `5.0`. -/
theorem score_trip_breakdown_invariants (t : TripData) (es : List Event) (ds : List Detection) :
    -40 ≤ (score_trip t es ds).breakdown.events ∧ (score_trip t es ds).breakdown.events ≤ 0 ∧
    -20 ≤ (score_trip t es ds).breakdown.overspeed ∧ (score_trip t es ds).breakdown.overspeed ≤ 0 ∧
    ((score_trip t es ds).breakdown.sign_compliance = 0 ∨
      (score_trip t es ds).breakdown.sign_compliance = 5) := by
  rw [score_trip_breakdown]
  obtain ⟨he1, he2⟩ := events_contribution_bounds t es
  obtain ⟨ho1, ho2⟩ := overspeed_contribution_bounds es
  refine ⟨?_, ?_, ?_, ?_, ?_⟩
  · have := round1_mono he1; rwa [round1_neg40] at this
  · have := round1_mono he2; rwa [round1_zero] at this
  · have := round1_mono ho1; rwa [round1_neg20] at this
  · have := round1_mono ho2; rwa [round1_zero] at this
  · rcases sign_bonus_cases ds with h | h
    · left; rw [h, round1_zero]
    · right; rw [h, round1_five]

/-- C4: for every trip summary, scoring with empty events and empty
detections yields score `100`, risk level `"low"`, grade `"A"`, no
issues, and exactly the one positive-reinforcement recommendation. -/
theorem score_trip_empty_is_perfect (t : TripData) :
    (score_trip t [] []).score = 100 ∧
    (score_trip t [] []).risk_level = "low" ∧
    (score_trip t [] []).grade = "A" ∧
    (score_trip t [] []).issues = [] ∧
    (score_trip t [] []).recommendations = [msg_positive] := by
  have hf : final_score t [] [] = 100 := by
    norm_num [final_score, events_contribution, overspeed_contribution, sign_bonus,
      event_counts, event_deduction, max_overspeed_kmh, detected_limits, clamp100]
  refine ⟨?_, ?_, ?_, rfl, rfl⟩
  · rw [score_trip_score, hf]; decide
  · rw [score_trip_risk, hf]; decide
  · rw [score_trip_grade, hf]; decide

/-- C5: for trip `{distance_m: 10000}` with six `hard_brake` events and
no detections, the result has `breakdown.events = -40` (the raw 180-point
deduction is capped), score `60`, grade `"D"`, risk `"medium"`, the
issue `"Hard braking: 6 times"`, and the rate-greater-than-5
larger-following-distance recommendation. -/
theorem score_trip_six_hard_brakes :
    score_trip ⟨some 10000, none⟩ (List.replicate 6 ⟨some "hard_brake", none⟩) [] =
      ⟨60, "medium", "D", ["Hard braking: 6 times"], [msg_hard_brake_high],
        ⟨100, -40, 0, 0⟩⟩ := by decide

/-- C6: for every input, `max_overspeed_kmh` is the maximum over
`overspeed` events of `max(0, speed_m_s * 3.6 - 50)` (zero when there
are none), the overspeed contribution is `-min(max_overspeed_kmh * 0.5, 20)`;
at trip `{distance_m: 10000}` with one `overspeed` event at
`speed_m_s = 25`, the returned breakdown has `overspeed = -20` and the
issues contain `"Max speed exceeded limit by 40 km/h"`. -/
theorem max_overspeed_tracking_and_penalty :
    (∀ es : List Event, max_overspeed_kmh es =
      ((es.filter (fun e => eventTypeOf e == "overspeed")).map overspeed_amount).foldr max 0) ∧
    (∀ es : List Event, overspeed_contribution es = -(min (max_overspeed_kmh es * 0.5) 20)) ∧
    (score_trip ⟨some 10000, none⟩ [⟨some "overspeed", some 25⟩] []).breakdown.overspeed = -20 ∧
    "Max speed exceeded limit by 40 km/h" ∈
      (score_trip ⟨some 10000, none⟩ [⟨some "overspeed", some 25⟩] []).issues :=
  ⟨max_overspeed_eq, fun _ => rfl, by decide, by decide⟩

/-! ### Congruence helpers: which parts of the input the scorer reads -/

lemma score_trip_eq_of_distance_eq {t₁ t₂ : TripData} (es : List Event) (ds : List Detection)
    (h : distance_km t₁ = distance_km t₂) : score_trip t₁ es ds = score_trip t₂ es ds := by
  unfold score_trip final_score events_contribution
  rw [h]

lemma score_trip_eq_of_sign_bonus_eq (t : TripData) (es : List Event) {ds₁ ds₂ : List Detection}
    (h : sign_bonus ds₁ = sign_bonus ds₂) : score_trip t es ds₁ = score_trip t es ds₂ := by
  unfold score_trip final_score
  rw [h]

lemma limitOf_eq_none_of_parse_none {d : Detection}
    (h : pyIntParse (lastToken (d.sign_class.getD "")) = none) : limitOf d = none := by
  unfold limitOf
  show (if strContains (d.sign_class.getD "") "speed_limit_" = true then
      pyIntParse (lastToken (d.sign_class.getD "")) else none) = none
  split_ifs <;> simp [h]

lemma detected_limits_cons_of_parse_none {d : Detection} (ds : List Detection)
    (h : pyIntParse (lastToken (d.sign_class.getD "")) = none) :
    detected_limits (d :: ds) = detected_limits ds := by
  unfold detected_limits
  rw [List.filterMap_cons, limitOf_eq_none_of_parse_none h]

/-- C2: `score_trip` is total and defensive: `None`/absent `distance_m`,
`duration_seconds` and `speed_m_s` behave exactly as the value `0`;
a detection whose trailing `sign_class` token does not parse as an
integer is silently ignored; an unrecognized event type is penalized at
the default rate `2.0`; the function always returns a `SafetyScore`
(it is a total function by construction). -/
theorem score_trip_total_and_defensive :
    (∀ (du : Option ℚ) (es : List Event) (ds : List Detection),
      score_trip ⟨none, du⟩ es ds = score_trip ⟨some 0, du⟩ es ds) ∧
    (∀ (dm : Option ℚ) (es : List Event) (ds : List Detection),
      score_trip ⟨dm, none⟩ es ds = score_trip ⟨dm, some 0⟩ es ds) ∧
    (∀ (t : TripData) (ty : Option String) (es : List Event) (ds : List Detection),
      score_trip t (⟨ty, none⟩ :: es) ds = score_trip t (⟨ty, some 0⟩ :: es) ds) ∧
    (∀ (t : TripData) (es : List Event) (d : Detection) (ds : List Detection),
      pyIntParse (lastToken (d.sign_class.getD "")) = none →
      score_trip t es (d :: ds) = score_trip t es ds) ∧
    (∀ ty : String, ty ≠ "hard_brake" → ty ≠ "harsh_accel" → ty ≠ "overspeed" →
      ty ≠ "unsafe_curve" → penaltyFor ty = 2) := by
  refine ⟨?_, ?_, ?_, ?_, ?_⟩
  · intro du es ds
    exact score_trip_eq_of_distance_eq es ds rfl
  · intro dm es ds
    exact score_trip_eq_of_distance_eq es ds rfl
  · intro t ty es ds
    rfl
  · intro t es d ds h
    exact score_trip_eq_of_sign_bonus_eq t es
      (by unfold sign_bonus; rw [detected_limits_cons_of_parse_none ds h])
  · intro ty h1 h2 h3 h4
    have e1 : ("hard_brake" == ty) = false := beq_eq_false_iff_ne.mpr (Ne.symm h1)
    have e2 : ("harsh_accel" == ty) = false := beq_eq_false_iff_ne.mpr (Ne.symm h2)
    have e3 : ("overspeed" == ty) = false := beq_eq_false_iff_ne.mpr (Ne.symm h3)
    have e4 : ("unsafe_curve" == ty) = false := beq_eq_false_iff_ne.mpr (Ne.symm h4)
    unfold penaltyFor EVENT_PENALTIES
    simp [List.find?, e1, e2, e3, e4]
    norm_num

/-- Witness for C2: concrete instances of the two hypothesis-carrying
conjuncts (a malformed speed-limit token is ignored; an unknown event
type gets the default penalty). -/
theorem score_trip_total_and_defensive_witness :
    (pyIntParse (lastToken ((some "speed_limit_xx" : Option String).getD "")) = none ∧
      score_trip ⟨some 5000, some 300⟩ [] [⟨some "speed_limit_xx", some (9/10)⟩] =
        score_trip ⟨some 5000, some 300⟩ [] []) ∧
    penaltyFor "tailgating" = 2 :=
  ⟨⟨by decide,
    score_trip_total_and_defensive.2.2.2.1 ⟨some 5000, some 300⟩ []
      ⟨some "speed_limit_xx", some (9/10)⟩ [] (by decide)⟩,
   score_trip_total_and_defensive.2.2.2.2 "tailgating"
     (by decide) (by decide) (by decide) (by decide)⟩

/-! ### Appending one hard-brake event (C7) -/

lemma max_overspeed_append_non_overspeed {e : Event} (es : List Event)
    (h : eventTypeOf e ≠ "overspeed") :
    max_overspeed_kmh (es ++ [e]) = max_overspeed_kmh es := by
  unfold max_overspeed_kmh
  rw [List.foldl_append]
  simp [h]

lemma event_counts_append (es : List Event) (e : Event) :
    event_counts (es ++ [e]) = insertCount (event_counts es) (eventTypeOf e) := by
  unfold event_counts
  rw [List.foldl_append]
  rfl

lemma event_deduction_nil (d : ℚ) : event_deduction [] d = 0 := rfl

lemma event_deduction_cons (p : String × Nat) (l : List (String × Nat)) (d : ℚ) :
    event_deduction (p :: l) d = deductionTerm d p + event_deduction l d := by
  simp [event_deduction]

lemma deductionTerm_succ (d : ℚ) (k : String) (c : Nat) :
    deductionTerm d (k, c + 1) = deductionTerm d (k, c) + (1 / d) * 100 * penaltyFor k := by
  unfold deductionTerm
  push_cast
  ring

lemma event_deduction_insert (l : List (String × Nat)) (k : String) (d : ℚ) :
    event_deduction (insertCount l k) d = event_deduction l d + (1 / d) * 100 * penaltyFor k := by
  induction l with
  | nil =>
      have hins : insertCount [] k = [(k, 1)] := rfl
      have h1 : deductionTerm d (k, 1) = 1 / d * 100 * penaltyFor k := by
        unfold deductionTerm
        push_cast
        ring
      rw [hins, event_deduction_cons, event_deduction_nil, h1]
      ring
  | cons p l ih =>
      obtain ⟨k', c'⟩ := p
      by_cases h : k' = k
      · subst h
        have hins : insertCount ((k', c') :: l) k' = (k', c' + 1) :: l := by
          simp [insertCount]
        rw [hins, event_deduction_cons, event_deduction_cons, deductionTerm_succ]
        ring
      · have hins : insertCount ((k', c') :: l) k = (k', c') :: insertCount l k := by
          simp [insertCount, h]
        rw [hins, event_deduction_cons, event_deduction_cons, ih]
        ring

/-- C7: appending one more `hard_brake` event (any speed value), with
the trip summary and detections held fixed, never increases the returned
score. -/
theorem score_antitone_in_hard_brakes (t : TripData) (es : List Event) (ds : List Detection)
    (sp : Option ℚ) :
    (score_trip t (es ++ [⟨some "hard_brake", sp⟩]) ds).score ≤ (score_trip t es ds).score := by
  set e : Event := ⟨some "hard_brake", sp⟩ with he
  have hty : eventTypeOf e = "hard_brake" := rfl
  have hd := distance_km_pos t
  have hpen : penaltyFor "hard_brake" = 3 := by decide
  have hinc : (0 : ℚ) ≤ (1 / distance_km t) * 100 * penaltyFor "hard_brake" := by
    rw [hpen]
    positivity
  have hded : event_deduction (event_counts (es ++ [e])) (distance_km t) =
      event_deduction (event_counts es) (distance_km t) +
        (1 / distance_km t) * 100 * penaltyFor "hard_brake" := by
    rw [event_counts_append, hty, event_deduction_insert]
  have hev : events_contribution t (es ++ [e]) ≤ events_contribution t es := by
    unfold events_contribution
    rw [hded]
    have : min (event_deduction (event_counts es) (distance_km t)) 40 ≤
        min (event_deduction (event_counts es) (distance_km t) +
          (1 / distance_km t) * 100 * penaltyFor "hard_brake") 40 :=
      min_le_min (le_add_of_nonneg_right hinc) le_rfl
    linarith
  have hmo : max_overspeed_kmh (es ++ [e]) = max_overspeed_kmh es :=
    max_overspeed_append_non_overspeed es (by rw [hty]; decide)
  have hfin : final_score t (es ++ [e]) ds ≤ final_score t es ds := by
    unfold final_score overspeed_contribution
    rw [hmo]
    exact clamp100_mono (by linarith)
  rw [score_trip_score, score_trip_score]
  exact pyRound_mono hfin

/-! ### Detections: only the speed-limit classes matter (C9) -/

/-- `"speed_limit_" in sign_class` for a detection. -/
def isSpeedLimitClass (d : Detection) : Bool :=
  strContains (d.sign_class.getD "") "speed_limit_"

/-- Forget the `confidence` field of a detection. -/
def eraseConfidence (d : Detection) : Detection := ⟨d.sign_class, none⟩

lemma limitOf_erase (d : Detection) : limitOf (eraseConfidence d) = limitOf d := rfl

lemma limitOf_eq_none_of_not_speed_limit {d : Detection} (h : isSpeedLimitClass d = false) :
    limitOf d = none := by
  unfold isSpeedLimitClass at h
  simp [limitOf, h]

lemma detected_limits_filter_erase (ds : List Detection) :
    detected_limits ((ds.filter isSpeedLimitClass).map eraseConfidence) = detected_limits ds := by
  induction ds with
  | nil => rfl
  | cons d ds ih =>
      by_cases h : isSpeedLimitClass d
      · rw [List.filter_cons_of_pos h, List.map_cons]
        unfold detected_limits at ih ⊢
        rw [List.filterMap_cons, List.filterMap_cons, limitOf_erase]
        cases hl : limitOf d with
        | none => exact ih
        | some v => rw [ih]
      · rw [List.filter_cons_of_neg (by simpa using h)]
        unfold detected_limits at ih ⊢
        rw [List.filterMap_cons,
          limitOf_eq_none_of_not_speed_limit (Bool.eq_false_iff.mpr h)]
        exact ih

/-- C9: two detection lists that agree after discarding confidences and
non-speed-limit classes produce identical scoring results: detections
are consulted only for the presence of a `"speed_limit_"` class, and
confidence values never influence the result. -/
theorem score_trip_ignores_confidence_and_non_speed_limit (t : TripData) (es : List Event)
    (ds₁ ds₂ : List Detection)
    (h : (ds₁.filter isSpeedLimitClass).map eraseConfidence =
      (ds₂.filter isSpeedLimitClass).map eraseConfidence) :
    score_trip t es ds₁ = score_trip t es ds₂ := by
  apply score_trip_eq_of_sign_bonus_eq
  unfold sign_bonus
  rw [← detected_limits_filter_erase ds₁, ← detected_limits_filter_erase ds₂, h]

/-- Witness for C9: changing a confidence and inserting a `"stop"`-class
detection leaves the result unchanged. -/
theorem score_trip_ignores_confidence_witness :
    (([⟨some "speed_limit_60", some (9/10)⟩] : List Detection).filter isSpeedLimitClass).map
        eraseConfidence =
      (([⟨some "stop", none⟩, ⟨some "speed_limit_60", some (1/10)⟩] :
        List Detection).filter isSpeedLimitClass).map eraseConfidence ∧
    score_trip ⟨some 2000, none⟩ [] [⟨some "speed_limit_60", some (9/10)⟩] =
      score_trip ⟨some 2000, none⟩ []
        [⟨some "stop", none⟩, ⟨some "speed_limit_60", some (1/10)⟩] :=
  ⟨by decide,
   score_trip_ignores_confidence_and_non_speed_limit ⟨some 2000, none⟩ [] _ _ (by decide)⟩

/-! ### Shape of the recommendation list (C10) -/

lemma rule_hard_brake_cases (hb : Nat) (d : ℚ) :
    rule_hard_brake hb d = [msg_hard_brake_high] ∨ rule_hard_brake hb d = [msg_hard_brake_low] ∨
      rule_hard_brake hb d = [] := by
  unfold rule_hard_brake
  split_ifs <;> simp

lemma rule_harsh_accel_cases (ha : Nat) (d : ℚ) :
    rule_harsh_accel ha d = [msg_harsh_accel] ∨ rule_harsh_accel ha d = [] := by
  unfold rule_harsh_accel
  split_ifs <;> simp

lemma rule_overspeed_cases (os : Nat) (mo : ℚ) :
    rule_overspeed os mo = [msg_overspeed_strong] ∨ rule_overspeed os mo = [msg_overspeed_mild] ∨
      rule_overspeed os mo = [] := by
  unfold rule_overspeed
  split_ifs <;> simp

lemma rule_unsafe_curve_cases (uc : Nat) :
    rule_unsafe_curve uc = [msg_unsafe_curve] ∨ rule_unsafe_curve uc = [] := by
  unfold rule_unsafe_curve
  split_ifs <;> simp

/-- C10: the returned recommendation list always has between 1 and 3
entries; when no rule fires it is exactly the positive message; when
rules fire it is the first 3 rule messages in the fixed evaluation order
(hard brake, harsh accel, overspeed, unsafe curve); in particular when
all four rules fire, the unsafe-curve message is dropped. -/
theorem recommendations_capped_and_ordered (t : TripData) (es : List Event) (ds : List Detection) :
    1 ≤ (score_trip t es ds).recommendations.length ∧
    (score_trip t es ds).recommendations.length ≤ 3 ∧
    (rule_messages (getCount (event_counts es) "hard_brake")
        (getCount (event_counts es) "harsh_accel") (getCount (event_counts es) "overspeed")
        (getCount (event_counts es) "unsafe_curve") (max_overspeed_kmh es) (distance_km t) = [] →
      (score_trip t es ds).recommendations = [msg_positive]) ∧
    (rule_messages (getCount (event_counts es) "hard_brake")
        (getCount (event_counts es) "harsh_accel") (getCount (event_counts es) "overspeed")
        (getCount (event_counts es) "unsafe_curve") (max_overspeed_kmh es) (distance_km t) ≠ [] →
      (score_trip t es ds).recommendations =
        (rule_messages (getCount (event_counts es) "hard_brake")
          (getCount (event_counts es) "harsh_accel") (getCount (event_counts es) "overspeed")
          (getCount (event_counts es) "unsafe_curve") (max_overspeed_kmh es)
          (distance_km t)).take 3) ∧
    ((rule_messages (getCount (event_counts es) "hard_brake")
        (getCount (event_counts es) "harsh_accel") (getCount (event_counts es) "overspeed")
        (getCount (event_counts es) "unsafe_curve") (max_overspeed_kmh es)
        (distance_km t)).length = 4 →
      msg_unsafe_curve ∉ (score_trip t es ds).recommendations) := by
  set A := getCount (event_counts es) "hard_brake" with hA
  set B := getCount (event_counts es) "harsh_accel" with hB
  set C := getCount (event_counts es) "overspeed" with hC
  set D := getCount (event_counts es) "unsafe_curve" with hD
  set mo := max_overspeed_kmh es with hmo
  set dd := distance_km t with hdd
  have hgen : (score_trip t es ds).recommendations =
      (if (rule_messages A B C D mo dd).isEmpty then [msg_positive]
       else rule_messages A B C D mo dd).take 3 := rfl
  have htk : ∀ h : rule_messages A B C D mo dd ≠ [],
      (score_trip t es ds).recommendations = (rule_messages A B C D mo dd).take 3 := by
    intro h
    rw [hgen, if_neg (by simpa [List.isEmpty_iff] using h)]
  refine ⟨?_, ?_, ?_, htk, ?_⟩
  · by_cases hm : rule_messages A B C D mo dd = []
    · rw [hgen, hm]
      simp
    · rw [htk hm]
      have := List.length_pos.mpr hm
      simp only [List.length_take]
      omega
  · by_cases hm : rule_messages A B C D mo dd = []
    · rw [hgen, hm]
      simp
    · rw [htk hm]
      simp only [List.length_take]
      omega
  · intro hm
    rw [hgen, hm]
    simp
  · intro h4
    have hne : rule_messages A B C D mo dd ≠ [] := by
      intro h0
      rw [h0] at h4
      simp at h4
    rw [htk hne]
    unfold rule_messages at h4 ⊢
    rcases rule_hard_brake_cases A dd with h1 | h1 | h1 <;>
      rcases rule_harsh_accel_cases B dd with h2 | h2 <;>
        rcases rule_overspeed_cases C mo with h3 | h3 | h3 <;>
          rcases rule_unsafe_curve_cases D with h5 | h5 <;>
            rw [h1, h2, h3, h5] at h4 ⊢ <;>
              first
                | (simp at h4; done)
                | decide

set_option maxHeartbeats 1000000 in
/-- Witness for C10: with all four rules firing, the unsafe-curve
message is dropped from the recommendations. -/
theorem recommendations_capped_and_ordered_witness :
    msg_unsafe_curve ∉
      (score_trip ⟨some 10000, none⟩
        (List.replicate 6 ⟨some "hard_brake", none⟩ ++
          [⟨some "harsh_accel", none⟩, ⟨some "overspeed", some 25⟩, ⟨some "unsafe_curve", none⟩])
        []).recommendations := by
  obtain ⟨-, -, -, -, h5⟩ := recommendations_capped_and_ordered ⟨some 10000, none⟩
    (List.replicate 6 ⟨some "hard_brake", none⟩ ++
      [⟨some "harsh_accel", none⟩, ⟨some "overspeed", some 25⟩, ⟨some "unsafe_curve", none⟩]) []
  exact h5 (by decide)

/-! ### The insertion-ordered counts dict under permutation (C8) -/

lemma getCount_nil (k : String) : getCount [] k = 0 := rfl

lemma getCount_cons (k' : String) (c' : Nat) (l : List (String × Nat)) (k : String) :
    getCount ((k', c') :: l) k = if k' = k then c' else getCount l k := by
  by_cases h : k' = k
  · unfold getCount
    rw [List.find?_cons_of_pos _ (by simpa using h)]
    simp [h]
  · unfold getCount
    rw [List.find?_cons_of_neg _ (by simpa using h)]
    simp [h]

lemma getCount_insertCount (l : List (String × Nat)) (k k' : String) :
    getCount (insertCount l k) k' = getCount l k' + (if k = k' then 1 else 0) := by
  induction l with
  | nil =>
      have : insertCount [] k = [(k, 1)] := rfl
      rw [this, getCount_cons, getCount_nil]
      split_ifs <;> simp
  | cons p l ih =>
      obtain ⟨a, c⟩ := p
      by_cases h : a = k
      · subst h
        have hins : insertCount ((a, c) :: l) a = (a, c + 1) :: l := by simp [insertCount]
        rw [hins, getCount_cons, getCount_cons]
        by_cases h2 : a = k'
        · simp [h2]
        · simp [h2]
      · have hins : insertCount ((a, c) :: l) k = (a, c) :: insertCount l k := by
          simp [insertCount, h]
        rw [hins, getCount_cons, getCount_cons, ih]
        by_cases h2 : a = k'
        · have : k ≠ k' := fun hk => h (h2.trans hk.symm)
          simp [h2, this]
        · simp [h2]

lemma getCount_foldl (es : List Event) :
    ∀ (acc : List (String × Nat)) (k : String),
      getCount (es.foldl (fun acc e => insertCount acc (eventTypeOf e)) acc) k =
        getCount acc k + es.countP (fun e => eventTypeOf e == k) := by
  induction es with
  | nil => intro acc k; simp
  | cons e es ih =>
      intro acc k
      rw [List.foldl_cons, ih, getCount_insertCount, List.countP_cons]
      by_cases h : eventTypeOf e = k
      · simp [h]
        omega
      · have hb : (eventTypeOf e == k) = false := by simpa using h
        simp [h, hb]

lemma getCount_event_counts (es : List Event) (k : String) :
    getCount (event_counts es) k = es.countP (fun e => eventTypeOf e == k) := by
  unfold event_counts
  rw [getCount_foldl, getCount_nil]
  omega

/-- Keys of the counts dict are pairwise distinct. -/
def keysNodup (l : List (String × Nat)) : Prop := (l.map Prod.fst).Nodup

/-- All counts in the dict are positive. -/
def valsPos (l : List (String × Nat)) : Prop := ∀ p ∈ l, 0 < p.2

lemma getCount_eq_zero_of_not_mem_keys {l : List (String × Nat)} {k : String}
    (h : k ∉ l.map Prod.fst) : getCount l k = 0 := by
  induction l with
  | nil => rfl
  | cons p l ih =>
      obtain ⟨a, c⟩ := p
      rw [List.map_cons, List.mem_cons] at h
      push_neg at h
      rw [getCount_cons, if_neg (fun hh : a = k => h.1 (by rw [hh]))]
      exact ih h.2

lemma keys_insertCount (l : List (String × Nat)) (k : String) :
    (insertCount l k).map Prod.fst =
      if k ∈ l.map Prod.fst then l.map Prod.fst else l.map Prod.fst ++ [k] := by
  induction l with
  | nil => simp [insertCount]
  | cons p l ih =>
      obtain ⟨a, c⟩ := p
      by_cases h : a = k
      · subst h
        have hins : insertCount ((a, c) :: l) a = (a, c + 1) :: l := by simp [insertCount]
        rw [hins]
        simp
      · have hins : insertCount ((a, c) :: l) k = (a, c) :: insertCount l k := by
          simp [insertCount, h]
        rw [hins]
        simp only [List.map_cons, ih]
        by_cases hm : k ∈ l.map Prod.fst
        · rw [if_pos hm, if_pos (by simp [hm])]
        · rw [if_neg hm, if_neg (by simp [hm, Ne.symm h])]
          simp

lemma keysNodup_insertCount {l : List (String × Nat)} (h : keysNodup l) (k : String) :
    keysNodup (insertCount l k) := by
  unfold keysNodup at h ⊢
  rw [keys_insertCount]
  by_cases hm : k ∈ l.map Prod.fst
  · rwa [if_pos hm]
  · rw [if_neg hm]
    rw [List.nodup_append]
    exact ⟨h, List.nodup_singleton k, by simpa using hm⟩

lemma valsPos_insertCount {l : List (String × Nat)} (h : valsPos l) (k : String) :
    valsPos (insertCount l k) := by
  induction l with
  | nil =>
      intro p hp
      have : insertCount [] k = [(k, 1)] := rfl
      rw [this] at hp
      rcases List.mem_singleton.mp hp with rfl
      simp
  | cons q l ih =>
      obtain ⟨a, c⟩ := q
      have hq : 0 < c := h (a, c) (List.mem_cons_self _ _)
      have hl : valsPos l := fun p hp => h p (List.mem_cons_of_mem _ hp)
      by_cases ha : a = k
      · subst ha
        have hins : insertCount ((a, c) :: l) a = (a, c + 1) :: l := by simp [insertCount]
        rw [hins]
        intro p hp
        rcases List.mem_cons.mp hp with rfl | hp
        · simp
        · exact hl p hp
      · have hins : insertCount ((a, c) :: l) k = (a, c) :: insertCount l k := by
          simp [insertCount, ha]
        rw [hins]
        intro p hp
        rcases List.mem_cons.mp hp with rfl | hp
        · exact hq
        · exact ih hl p hp

lemma foldl_insertCount_keysNodup :
    ∀ (es : List Event) (acc : List (String × Nat)), keysNodup acc →
      keysNodup (es.foldl (fun acc e => insertCount acc (eventTypeOf e)) acc)
  | [], _, h => h
  | e :: es, acc, h =>
      foldl_insertCount_keysNodup es (insertCount acc (eventTypeOf e))
        (keysNodup_insertCount h _)

lemma foldl_insertCount_valsPos :
    ∀ (es : List Event) (acc : List (String × Nat)), valsPos acc →
      valsPos (es.foldl (fun acc e => insertCount acc (eventTypeOf e)) acc)
  | [], _, h => h
  | e :: es, acc, h =>
      foldl_insertCount_valsPos es (insertCount acc (eventTypeOf e))
        (valsPos_insertCount h _)

lemma event_counts_keysNodup (es : List Event) : keysNodup (event_counts es) :=
  foldl_insertCount_keysNodup es [] List.nodup_nil

lemma event_counts_valsPos (es : List Event) : valsPos (event_counts es) :=
  foldl_insertCount_valsPos es [] (fun p hp => absurd hp (List.not_mem_nil p))

lemma count_pair_eq {l : List (String × Nat)} (hnd : keysNodup l) (hvp : valsPos l)
    (k : String) (c : Nat) :
    @List.count _ instBEqOfDecidableEq (k, c) l =
      if 0 < c ∧ getCount l k = c then 1 else 0 := by
  induction l with
  | nil =>
      rw [@List.count_nil _ instBEqOfDecidableEq, getCount_nil]
      split_ifs with h
      · omega
      · rfl
  | cons p l ih =>
      obtain ⟨a, b⟩ := p
      have hnd' : keysNodup l := by
        unfold keysNodup at hnd ⊢
        exact (List.nodup_cons.mp hnd).2
      have hmemk : a ∉ l.map Prod.fst := by
        unfold keysNodup at hnd
        exact (List.nodup_cons.mp hnd).1
      have hvp' : valsPos l := fun q hq => hvp q (List.mem_cons_of_mem _ hq)
      have hb : 0 < b := hvp (a, b) (List.mem_cons_self _ _)
      rw [@List.count_cons _ instBEqOfDecidableEq, ih hnd' hvp', getCount_cons]
      have hbeq : ∀ x y : String × Nat,
          (@BEq.beq _ instBEqOfDecidableEq x y) = decide (x = y) := fun _ _ => rfl
      by_cases hak : a = k
      · subst hak
        rw [getCount_eq_zero_of_not_mem_keys hmemk, if_pos rfl]
        simp only [hbeq, decide_eq_true_eq, Prod.mk.injEq, true_and]
        split_ifs <;> omega
      · rw [if_neg hak]
        simp only [hbeq, decide_eq_true_eq, Prod.mk.injEq]
        split_ifs <;> first | omega | simp_all

lemma event_counts_perm {es₁ es₂ : List Event} (h : es₁.Perm es₂) :
    (event_counts es₁).Perm (event_counts es₂) := by
  rw [List.perm_iff_count]
  rintro ⟨k, c⟩
  rw [count_pair_eq (event_counts_keysNodup es₁) (event_counts_valsPos es₁),
    count_pair_eq (event_counts_keysNodup es₂) (event_counts_valsPos es₂),
    getCount_event_counts, getCount_event_counts, h.countP_eq]

lemma event_deduction_perm {es₁ es₂ : List Event} (h : es₁.Perm es₂) (d : ℚ) :
    event_deduction (event_counts es₁) d = event_deduction (event_counts es₂) d := by
  unfold event_deduction
  exact ((event_counts_perm h).map _).sum_eq

lemma max_overspeed_perm {es₁ es₂ : List Event} (h : es₁.Perm es₂) :
    max_overspeed_kmh es₁ = max_overspeed_kmh es₂ := by
  rw [max_overspeed_eq, max_overspeed_eq]
  exact ((h.filter _).map _).foldr_eq' (fun x _ y _ z => max_left_comm y x z) 0

lemma issues_of_perm {es₁ es₂ : List Event} (h : es₁.Perm es₂) :
    (issues_of es₁).Perm (issues_of es₂) := by
  unfold issues_of event_issues
  refine List.Perm.append ((event_counts_perm h).filterMap _) ?_
  rw [max_overspeed_perm h]

lemma generate_recommendations_perm {es₁ es₂ : List Event} (h : es₁.Perm es₂) (t : TripData) :
    generate_recommendations (event_counts es₁) (max_overspeed_kmh es₁) (distance_km t) =
      generate_recommendations (event_counts es₂) (max_overspeed_kmh es₂) (distance_km t) := by
  have g : ∀ k, getCount (event_counts es₁) k = getCount (event_counts es₂) k := fun k => by
    rw [getCount_event_counts, getCount_event_counts, h.countP_eq]
  unfold generate_recommendations
  rw [g, g, g, g, max_overspeed_perm h]

lemma final_score_perm {es₁ es₂ : List Event} (h : es₁.Perm es₂) (t : TripData)
    (ds : List Detection) : final_score t es₁ ds = final_score t es₂ ds := by
  unfold final_score events_contribution overspeed_contribution
  rw [event_deduction_perm h, max_overspeed_perm h]

/-- C8 (amended): permuting the events list leaves the score, risk
level, grade, breakdown and recommendations unchanged, and permutes the
issues list accordingly (the first-occurrence order of event types
determines the order of the issue strings, so the issues list itself is
only equal as a multiset, not as a list). -/
theorem score_trip_perm_invariant_except_issue_order (t : TripData) (ds : List Detection)
    (es₁ es₂ : List Event) (h : es₁.Perm es₂) :
    (score_trip t es₁ ds).score = (score_trip t es₂ ds).score ∧
    (score_trip t es₁ ds).risk_level = (score_trip t es₂ ds).risk_level ∧
    (score_trip t es₁ ds).grade = (score_trip t es₂ ds).grade ∧
    (score_trip t es₁ ds).breakdown = (score_trip t es₂ ds).breakdown ∧
    (score_trip t es₁ ds).recommendations = (score_trip t es₂ ds).recommendations ∧
    (score_trip t es₁ ds).issues.Perm (score_trip t es₂ ds).issues := by
  have hfin := final_score_perm h t ds
  have hev : events_contribution t es₁ = events_contribution t es₂ := by
    unfold events_contribution
    rw [event_deduction_perm h]
  have hov : overspeed_contribution es₁ = overspeed_contribution es₂ := by
    unfold overspeed_contribution
    rw [max_overspeed_perm h]
  refine ⟨?_, ?_, ?_, ?_, ?_, ?_⟩
  · rw [score_trip_score, score_trip_score, hfin]
  · rw [score_trip_risk, score_trip_risk, hfin]
  · rw [score_trip_grade, score_trip_grade, hfin]
  · rw [score_trip_breakdown, score_trip_breakdown, hev, hov]
  · rw [score_trip_recommendations, score_trip_recommendations,
      generate_recommendations_perm h]
  · rw [score_trip_issues, score_trip_issues]
    exact issues_of_perm h

/-- Counterexample for C8 as stated: swapping a `hard_brake` and a
`harsh_accel` event is a permutation of the events list, yet the two
results differ (their `issues` lists hold the same two strings in a
different order). -/
theorem score_trip_not_permutation_invariant :
    ([(⟨some "hard_brake", none⟩ : Event), ⟨some "harsh_accel", none⟩].Perm
      [⟨some "harsh_accel", none⟩, ⟨some "hard_brake", none⟩]) ∧
    score_trip ⟨some 10000, none⟩
        [⟨some "hard_brake", none⟩, ⟨some "harsh_accel", none⟩] [] ≠
      score_trip ⟨some 10000, none⟩
        [⟨some "harsh_accel", none⟩, ⟨some "hard_brake", none⟩] [] :=
  ⟨List.Perm.swap _ _ _, by decide⟩

/-- Witness for the amended C8: at the concrete swapped pair, the scores
agree. -/
theorem score_trip_perm_invariant_witness :
    ([(⟨some "hard_brake", none⟩ : Event), ⟨some "harsh_accel", none⟩].Perm
      [⟨some "harsh_accel", none⟩, ⟨some "hard_brake", none⟩]) ∧
    (score_trip ⟨some 10000, none⟩
        [⟨some "hard_brake", none⟩, ⟨some "harsh_accel", none⟩] []).score =
      (score_trip ⟨some 10000, none⟩
        [⟨some "harsh_accel", none⟩, ⟨some "hard_brake", none⟩] []).score :=
  ⟨List.Perm.swap _ _ _,
    (score_trip_perm_invariant_except_issue_order ⟨some 10000, none⟩ [] _ _
      (List.Perm.swap _ _ _)).1⟩

end SteerMate
